import Mathlib

/-!
Verification of the pug-lobby launch module: the role-sufficiency
calculator (`calculateRolesNeeded`), the launch-condition check
(`checkLaunchConditions`), the launch-attempt state machine
(`attemptLaunch` and the ready-check timer resolution `resolveWindow`),
and the availability / readiness event handlers.

User identifiers are modelled as natural numbers (they are opaque in the
source), role names as strings, and JS `Set`s as `Finset Nat`.  The role
configuration object (`config.get('app.games.roles')`, a map from role
name to `{min}`) is modelled as an association list `List (String × Nat)`
pairing each role name with its `min`; `lodash.keys roles` is its list of
first components.
-/

namespace Pugchamp

/-- A role configuration: each entry is a role name paired with the
configured `min` (minimum players per team) for that role. -/
abbrev RoleConfig := List (String × Nat)

/-- `roles[roleName].min`: property lookup of a role's `min` in the
configuration object.  In the source every name looked up comes from
`lodash.keys(roles)`, so the lookup always succeeds; the default is
never reached on those inputs. -/
def roleMin (roles : RoleConfig) (roleName : String) : Nat :=
  (roles.lookup roleName).getD 0

/-- The accumulator built by the `lodash.reduce` inside
`checkCombination`: the union of the availability pools seen so far and
the total required headcount so far. -/
structure CombinationInfo where
  available : Finset Nat
  required : Nat
deriving DecidableEq

/-- One entry of the calculator's output: a deficient role combination
together with how many players it is missing (`needed` is the JS number
`required - available.size`, only pushed when positive). -/
structure NeededCombination where
  roles : List String
  needed : Int
deriving DecidableEq, Repr

/-- The `lodash.reduce` of `checkCombination`: fold over the role names
of the combination, taking the union with each role's availability pool
and adding `roles[roleName].min * 2` to the required count. -/
def combinationInfo (roles : RoleConfig) (playersAvailable : String → Finset Nat)
    (combination : List String) : CombinationInfo :=
  combination.foldl
    (fun current roleName =>
      { available := current.available ∪ playersAvailable roleName,
        required := current.required + roleMin roles roleName * 2 })
    { available := ∅, required := 0 }

/-- `checkCombination`: evaluate one role combination; report it (with
its shortfall) when the distinct available players are fewer than the
required headcount. -/
def checkCombination (roles : RoleConfig) (playersAvailable : String → Finset Nat)
    (combination : List String) : Option NeededCombination :=
  let info := combinationInfo roles playersAvailable combination
  let missing : Int := (info.required : Int) - (info.available.card : Int)
  if missing > 0 then some { roles := combination, needed := missing } else none

/-- `Combinatorics.combination(roleNames, k).toArray()`: all
k-element combinations of the role-name list. -/
def combination (roleNames : List String) (k : Nat) : List (List String) :=
  List.sublistsLen k roleNames

/-- The combinations examined by the `for (let k = 1; k <= n; k++)`
loop: every combination of 1 ≤ k ≤ n role names. -/
def enumeratedCombinations (roleNames : List String) : List (List String) :=
  (List.range roleNames.length).flatMap (fun k => combination roleNames (k + 1))

/-- `calculateRolesNeeded`: examine every non-empty combination of
configured role names and collect each deficient one. -/
def calculateRolesNeeded (roles : RoleConfig) (playersAvailable : String → Finset Nat) :
    List NeededCombination :=
  (enumeratedCombinations (roles.map Prod.fst)).filterMap
    (checkCombination roles playersAvailable)

/-- Spec-side: the union of the availability pools of the roles in a
subset. -/
def subsetUnion (playersAvailable : String → Finset Nat) (c : List String) : Finset Nat :=
  c.foldr (fun roleName acc => playersAvailable roleName ∪ acc) ∅

/-- Spec-side: the total required headcount of a subset, the sum of
`minimumPerTeam × 2` over its roles. -/
def subsetRequired (roles : RoleConfig) (c : List String) : Nat :=
  (c.map (fun roleName => roleMin roles roleName * 2)).sum

lemma combinationInfo_foldl (roles : RoleConfig) (pa : String → Finset Nat)
    (c : List String) (s₀ : Finset Nat) (t₀ : Nat) :
    c.foldl
      (fun current roleName =>
        { available := current.available ∪ pa roleName,
          required := current.required + roleMin roles roleName * 2 })
      ({ available := s₀, required := t₀ } : CombinationInfo) =
      { available := s₀ ∪ subsetUnion pa c, required := t₀ + subsetRequired roles c } := by
  induction c generalizing s₀ t₀ with
  | nil => simp [subsetUnion, subsetRequired]
  | cons r c ih =>
    simp only [List.foldl_cons]
    rw [ih]
    simp [subsetUnion, subsetRequired, Finset.union_assoc, Nat.add_assoc]

lemma combinationInfo_eq (roles : RoleConfig) (pa : String → Finset Nat) (c : List String) :
    combinationInfo roles pa c =
      { available := subsetUnion pa c, required := subsetRequired roles c } := by
  simpa using combinationInfo_foldl roles pa c ∅ 0

lemma checkCombination_eq_some (roles : RoleConfig) (pa : String → Finset Nat)
    (c : List String) (d : NeededCombination) :
    checkCombination roles pa c = some d ↔
      ((subsetUnion pa c).card < subsetRequired roles c ∧
        d = { roles := c,
              needed := (subsetRequired roles c : Int) - ((subsetUnion pa c).card : Int) }) := by
  simp only [checkCombination, combinationInfo_eq]
  constructor
  · intro h
    split at h
    · next hpos =>
        cases h
        exact ⟨by omega, rfl⟩
    · exact absurd h (by simp)
  · rintro ⟨hlt, rfl⟩
    rw [if_pos (by omega)]

lemma mem_enumeratedCombinations (roleNames : List String) (c : List String) :
    c ∈ enumeratedCombinations roleNames ↔ c.Sublist roleNames ∧ c ≠ [] := by
  unfold enumeratedCombinations combination
  simp only [List.mem_flatMap, List.mem_range, List.mem_sublistsLen]
  constructor
  · rintro ⟨k, hk, hsub, hlen⟩
    exact ⟨hsub, by simp [← List.length_pos_iff_ne_nil, hlen]⟩
  · rintro ⟨hsub, hne⟩
    have hpos : 0 < c.length := List.length_pos_iff_ne_nil.mpr hne
    have hle : c.length ≤ roleNames.length := hsub.length_le
    exact ⟨c.length - 1, by omega, hsub, by omega⟩

lemma mem_calculateRolesNeeded (roles : RoleConfig) (pa : String → Finset Nat)
    (d : NeededCombination) :
    d ∈ calculateRolesNeeded roles pa ↔
      (d.roles.Sublist (roles.map Prod.fst) ∧ d.roles ≠ [] ∧
        (subsetUnion pa d.roles).card < subsetRequired roles d.roles ∧
        d.needed = (subsetRequired roles d.roles : Int) -
          ((subsetUnion pa d.roles).card : Int)) := by
  unfold calculateRolesNeeded
  rw [List.mem_filterMap]
  constructor
  · rintro ⟨c, hc, hsome⟩
    rw [checkCombination_eq_some] at hsome
    obtain ⟨hlt, rfl⟩ := hsome
    rw [mem_enumeratedCombinations] at hc
    exact ⟨hc.1, hc.2, hlt, rfl⟩
  · rintro ⟨hsub, hne, hlt, hneed⟩
    refine ⟨d.roles, (mem_enumeratedCombinations ..).mpr ⟨hsub, hne⟩, ?_⟩
    rw [checkCombination_eq_some]
    refine ⟨hlt, ?_⟩
    cases d
    dsimp at hneed ⊢
    rw [hneed]

lemma calculateRolesNeeded_eq_nil (roles : RoleConfig) (pa : String → Finset Nat) :
    calculateRolesNeeded roles pa = [] ↔
      ∀ c : List String, c.Sublist (roles.map Prod.fst) → c ≠ [] →
        subsetRequired roles c ≤ (subsetUnion pa c).card := by
  rw [List.eq_nil_iff_forall_not_mem]
  constructor
  · intro h c hsub hne
    by_contra hlt
    push_neg at hlt
    exact h { roles := c,
              needed := (subsetRequired roles c : Int) - ((subsetUnion pa c).card : Int) }
      ((mem_calculateRolesNeeded ..).mpr ⟨hsub, hne, hlt, rfl⟩)
  · intro h d hd
    rw [mem_calculateRolesNeeded] at hd
    exact absurd (h d.roles hd.1 hd.2.1) (by omega)

lemma subsetUnion_mono (a b : String → Finset Nat) (hab : ∀ r, a r ⊆ b r)
    (c : List String) : subsetUnion a c ⊆ subsetUnion b c := by
  induction c with
  | nil => simp [subsetUnion]
  | cons r c ih =>
    simpa [subsetUnion] using Finset.union_subset_union (hab r) ih

lemma calculateRolesNeeded_mono (roles : RoleConfig) (a b : String → Finset Nat)
    (hab : ∀ r, a r ⊆ b r) (h : calculateRolesNeeded roles a = []) :
    calculateRolesNeeded roles b = [] := by
  rw [calculateRolesNeeded_eq_nil] at h ⊢
  intro c hsub hne
  exact le_trans (h c hsub hne) (Finset.card_le_card (subsetUnion_mono a b hab c))

lemma length_enumeratedCombinations (roleNames : List String) :
    (enumeratedCombinations roleNames).length = 2 ^ roleNames.length - 1 := by
  unfold enumeratedCombinations combination
  rw [List.length_flatMap]
  have hmap : ∀ n : Nat,
      ((List.range n).map (fun k => (List.sublistsLen (k + 1) roleNames).length)).sum =
        ∑ k ∈ Finset.range n, Nat.choose roleNames.length (k + 1) := by
    intro n
    induction n with
    | zero => simp
    | succ m ih =>
      rw [List.range_succ, List.map_append, List.sum_append, Finset.sum_range_succ, ih]
      simp [List.length_sublistsLen]
  rw [show (List.length ∘ fun k => List.sublistsLen (k + 1) roleNames) =
      (fun k => (List.sublistsLen (k + 1) roleNames).length) from rfl]
  rw [hmap]
  have hshift := Finset.sum_range_succ' (fun i => Nat.choose roleNames.length i)
    roleNames.length
  rw [Nat.sum_range_choose] at hshift
  have h0 : Nat.choose roleNames.length 0 = 1 := Nat.choose_zero_right _
  omega

/-! ## Lobby state and the launch-condition check -/

/-- A status snapshot (`prepareStatusMessage`'s result).  User descriptor
filtering (`self.getFilteredUser`) is modelled by the function `fu`
passed to the constructor of the snapshot. -/
structure StatusMessage where
  playersAvailable : List (String × List Nat)
  captainsAvailable : List Nat
  rolesNeeded : List NeededCombination
  missingLaunchConditions : List String
deriving DecidableEq

/-- The module-level mutable state of the launch module:
`captainsAvailable`, `playersAvailable` (an object keyed by the
configured role names), `missingLaunchConditions` (initially unset,
modelled as `[]` — it is assigned before its first read),
`launchAttemptInProgress`, `readiesReceived` and `currentStatusMessage`. -/
structure LobbyState where
  captainsAvailable : Finset Nat
  playersAvailable : List (String × Finset Nat)
  missingLaunchConditions : List String
  launchAttemptInProgress : Bool
  readiesReceived : Finset Nat
  currentStatusMessage : Option StatusMessage
deriving DecidableEq

/-- `playersAvailable[roleName]`: property lookup in the availability
object.  The object always carries exactly the configured role keys, so
the default is never reached on the names the calculator asks for. -/
def poolOf (pools : List (String × Finset Nat)) (roleName : String) : Finset Nat :=
  (pools.lookup roleName).getD ∅

/-- The initial module state: empty captain set, an empty pool per
configured role, no window open, empty ready set. -/
def initialState (roles : RoleConfig) : LobbyState :=
  { captainsAvailable := ∅,
    playersAvailable := roles.map (fun r => (r.1, ∅)),
    missingLaunchConditions := [],
    launchAttemptInProgress := false,
    readiesReceived := ∅,
    currentStatusMessage := none }

/-- The body of the single promise inside `checkLaunchConditions`:
the ordered early-return cascade. -/
def launchConditionsCheck (roles : RoleConfig) (st : LobbyState) : List String :=
  if st.captainsAvailable.card < 2 then ["notAvailable"]
  else if (calculateRolesNeeded roles (poolOf st.playersAvailable)).length ≠ 0 then
    ["notAvailable"]
  else if ¬ st.launchAttemptInProgress then ["readyNotChecked"]
  else
    let finalPlayersAvailable :=
      st.playersAvailable.map (fun p => (p.1, p.2 ∩ st.readiesReceived))
    let finalCaptainsAvailable := st.captainsAvailable ∩ st.readiesReceived
    if finalCaptainsAvailable.card < 2 then ["notReady"]
    else if (calculateRolesNeeded roles (poolOf finalPlayersAvailable)).length ≠ 0 then
      ["notReady"]
    else []

/-- `checkLaunchConditions`: `Promise.all` over the single condition
check, then `lodash(..).flatten().compact().value()` (compact removes
falsy entries — for strings, the empty string). -/
def checkLaunchConditions (roles : RoleConfig) (st : LobbyState) : List String :=
  ([launchConditionsCheck roles st].flatten).filter (fun s => decide (s ≠ ""))

/-- Spec-side: "the calculator reports a deficit" — some non-empty
subset of the configured roles whose pooled distinct players are fewer
than its required headcount. -/
def anyDeficit (roles : RoleConfig) (playersAvailable : String → Finset Nat) : Bool :=
  (enumeratedCombinations (roles.map Prod.fst)).any
    (fun c => decide ((subsetUnion playersAvailable c).card < subsetRequired roles c))

/-- Modelled from the spec's ordered evaluation of
`checkLaunchConditions` (section 4.3, steps 1–5), for comparison with
the source definition. -/
def checkLaunchConditionsSpec (roles : RoleConfig) (st : LobbyState) : List String :=
  if st.captainsAvailable.card < 2 then ["notAvailable"]
  else if anyDeficit roles (poolOf st.playersAvailable) then ["notAvailable"]
  else if ¬ st.launchAttemptInProgress then ["readyNotChecked"]
  else
    let readyPools :=
      st.playersAvailable.map (fun p => (p.1, p.2 ∩ st.readiesReceived))
    if (st.captainsAvailable ∩ st.readiesReceived).card < 2 ∨
        anyDeficit roles (poolOf readyPools) then ["notReady"]
    else []

lemma anyDeficit_iff (roles : RoleConfig) (pa : String → Finset Nat) :
    anyDeficit roles pa = true ↔ calculateRolesNeeded roles pa ≠ [] := by
  rw [Ne, calculateRolesNeeded_eq_nil, anyDeficit, List.any_eq_true]
  simp only [decide_eq_true_eq, mem_enumeratedCombinations]
  constructor
  · rintro ⟨c, ⟨hsub, hne⟩, hlt⟩ hall
    exact absurd (hall c hsub hne) (by omega)
  · intro h
    by_contra hnone
    push_neg at hnone
    exact h (fun c hsub hne => hnone c ⟨hsub, hne⟩)

lemma checkLaunchConditions_eq_spec (roles : RoleConfig) (st : LobbyState) :
    checkLaunchConditions roles st = checkLaunchConditionsSpec roles st := by
  unfold checkLaunchConditions launchConditionsCheck checkLaunchConditionsSpec
  have hlen : ∀ pa : String → Finset Nat,
      ((calculateRolesNeeded roles pa).length ≠ 0) ↔ anyDeficit roles pa = true := by
    intro pa
    rw [anyDeficit_iff, Ne, Ne, List.length_eq_zero]
  by_cases h1 : st.captainsAvailable.card < 2
  · simp [h1]
  · by_cases h2 : (calculateRolesNeeded roles (poolOf st.playersAvailable)).length ≠ 0
    · simp [h1, h2, (hlen _).mp h2]
    · have h2' : ¬ anyDeficit roles (poolOf st.playersAvailable) = true :=
        fun hc => h2 ((hlen _).mpr hc)
      by_cases h3 : st.launchAttemptInProgress
      · by_cases h4 : (st.captainsAvailable ∩ st.readiesReceived).card < 2
        · simp [h1, h2, h2', h3, h4]
        · by_cases h5 : (calculateRolesNeeded roles
              (poolOf (st.playersAvailable.map
                (fun p => (p.1, p.2 ∩ st.readiesReceived))))).length ≠ 0
          · have h5l : ¬ (calculateRolesNeeded roles
                (poolOf (st.playersAvailable.map
                  (fun p => (p.1, p.2 ∩ st.readiesReceived)))) = []) := by
              intro hnil
              exact h5 (by rw [hnil]; rfl)
            simp [h1, h2, h2', h3, h4, h5l, (hlen _).mp h5]
          · have h5l : calculateRolesNeeded roles
                (poolOf (st.playersAvailable.map
                  (fun p => (p.1, p.2 ∩ st.readiesReceived)))) = [] :=
              List.length_eq_zero.mp (by omega)
            have h5b : anyDeficit roles
                (poolOf (st.playersAvailable.map
                  (fun p => (p.1, p.2 ∩ st.readiesReceived)))) = false := by
              rw [Bool.eq_false_iff, Ne, anyDeficit_iff]
              intro hne
              exact hne h5l
            simp [h1, h2, h2', h3, h4, h5l, h5b]
      · simp [h1, h2, h2', h3]

/-! ## Status snapshots, events and the launch-attempt state machine -/

/-- Spread of a JS `Set` into an array (`[...someSet]`).  Sets are
iterable; their insertion order is not observable through any claim, so
it is abstracted as the sorted order of the identifiers. -/
def spreadSet (s : Finset Nat) : List Nat :=
  s.sort (· ≤ ·)

/-- Array spread `[...playersAvailable]` of the availability object.
`playersAvailable` is a plain object (the result of `lodash.mapValues`);
plain objects do not implement the JS iterable protocol, so evaluating
the spread expression throws a `TypeError` instead of producing an
array. -/
def spreadPlainObject (_pools : List (String × Finset Nat)) :
    Except String (List (List Nat)) :=
  Except.error "TypeError: playersAvailable is not iterable"

/-- `prepareStatusMessage`: build the status snapshot from the current
module state.  `fu` models the external `self.getFilteredUser`. -/
def prepareStatusMessage (roles : RoleConfig) (fu : Nat → Nat) (st : LobbyState) :
    StatusMessage :=
  { playersAvailable :=
      st.playersAvailable.map (fun p => (p.1, (spreadSet p.2).map fu)),
    captainsAvailable := (spreadSet st.captainsAvailable).map fu,
    rolesNeeded := calculateRolesNeeded roles (poolOf st.playersAvailable),
    missingLaunchConditions := st.missingLaunchConditions }

/-- The outward-visible emissions of the launch module.  A
`launchStatusUpdated` broadcast carries the current status message (held
in the state); `sendMessageToUser` is the direct acknowledgment to one
user; `launchGameDraft` is the roster event for the draft subsystem. -/
inductive Event where
  | launchStatusUpdated
  | launchInProgress
  | launchAborted
  | launchGameDraft (players : List (List Nat)) (captains : List Nat)
  | sendMessageToUser (userID : Nat)
deriving DecidableEq, Repr

/-- Result of one `attemptLaunch()` call: the new module state, the
emitted events in order, and whether a ready-check timer was
scheduled. -/
structure AttemptResult where
  state : LobbyState
  events : List Event
  timerScheduled : Bool
deriving DecidableEq

/-- `attemptLaunch`: when a window is open, only rebuild and rebroadcast
the status snapshot; otherwise evaluate the launch conditions,
broadcast, and open a ready-check window (reset the ready set, announce
it, schedule the timer) when every unmet condition other than
`readyNotChecked` is satisfied. -/
def attemptLaunch (roles : RoleConfig) (fu : Nat → Nat) (st : LobbyState) :
    AttemptResult :=
  if st.launchAttemptInProgress then
    { state := { st with currentStatusMessage := some (prepareStatusMessage roles fu st) },
      events := [Event.launchStatusUpdated],
      timerScheduled := false }
  else
    let missing := checkLaunchConditions roles st
    let st1 := { st with missingLaunchConditions := missing }
    let st2 := { st1 with currentStatusMessage := some (prepareStatusMessage roles fu st1) }
    if (missing.filter (fun s => decide (s ≠ "readyNotChecked"))).length = 0 then
      { state := { st2 with launchAttemptInProgress := true, readiesReceived := ∅ },
        events := [Event.launchStatusUpdated, Event.launchInProgress],
        timerScheduled := true }
    else
      { state := st2, events := [Event.launchStatusUpdated], timerScheduled := false }

/-- Result of the ready-check timer callback: the new module state, the
emitted events, and the JS exception (if any) that aborted the callback
before it could finish. -/
structure ResolveResult where
  state : LobbyState
  events : List Event
  fault : Option String
deriving DecidableEq

/-- The `setTimeout` callback that resolves a ready-check window:
re-evaluate the launch conditions, replace each availability pool and
the captain set with its intersection with the ready set, rebroadcast
the snapshot, and then either emit the roster to the draft subsystem
(no unmet conditions) or broadcast an abort.  Building the roster
evaluates `[...playersAvailable]`, which throws (see
`spreadPlainObject`), so the roster emission is never reached.  Neither
branch assigns `launchAttemptInProgress`. -/
def resolveWindow (roles : RoleConfig) (fu : Nat → Nat) (st : LobbyState) :
    ResolveResult :=
  let missing := checkLaunchConditions roles st
  let st1 := { st with missingLaunchConditions := missing }
  let st2 := { st1 with
    playersAvailable :=
      st1.playersAvailable.map
        (fun p : String × Finset Nat => (p.1, p.2 ∩ st1.readiesReceived)),
    captainsAvailable := st1.captainsAvailable ∩ st1.readiesReceived }
  let st3 := { st2 with currentStatusMessage := some (prepareStatusMessage roles fu st2) }
  if st3.missingLaunchConditions.length = 0 then
    match spreadPlainObject st3.playersAvailable with
    | Except.error e => { state := st3, events := [Event.launchStatusUpdated], fault := some e }
    | Except.ok ps =>
        { state := st3,
          events := [Event.launchStatusUpdated,
            Event.launchGameDraft ps (spreadSet st3.captainsAvailable)],
          fault := none }
  else
    { state := st3, events := [Event.launchStatusUpdated, Event.launchAborted], fault := none }

/-! ## Availability and readiness event handlers -/

/-- The registry mutation of the `updateUserAvailability` handler, given
the user's restriction aspects: a `start` denial clears the user from
every pool and from the captain set; otherwise the user is toggled in
each role pool according to the desired roles, and in the captain set
according to the captain flag unless a `captain` denial forces
removal. -/
def applyAvailability (st : LobbyState) (aspects : List String) (userID : Nat)
    (desiredRoles : List String) (captain : Bool) : LobbyState :=
  if "start" ∉ aspects then
    { st with
      playersAvailable := st.playersAvailable.map (fun p : String × Finset Nat =>
        if p.1 ∈ desiredRoles then (p.1, insert userID p.2) else (p.1, p.2.erase userID)),
      captainsAvailable :=
        if "captain" ∉ aspects then
          (if captain then insert userID st.captainsAvailable
           else st.captainsAvailable.erase userID)
        else st.captainsAvailable.erase userID }
  else
    { st with
      playersAvailable := st.playersAvailable.map (fun p => (p.1, p.2.erase userID)),
      captainsAvailable := st.captainsAvailable.erase userID }

/-- Result of one event-handler run: the new module state, the emitted
events, whether a timer was scheduled, and the JS exception (if any)
that aborted the handler. -/
structure HandlerResult where
  state : LobbyState
  events : List Event
  timerScheduled : Bool
  fault : Option String
deriving DecidableEq

/-- The `updateUserAvailability` handler: look up the user's
restrictions (`self.userRestrictions[userID].aspects` — for a user
absent from the restriction map the lookup yields `undefined` and the
`.aspects` access throws before any mutation), apply the registry
mutation, acknowledge the user, and invoke `attemptLaunch()`. -/
def updateUserAvailabilityHandler (restrictions : List (Nat × List String))
    (roles : RoleConfig) (fu : Nat → Nat) (st : LobbyState) (userID : Nat)
    (desiredRoles : List String) (captain : Bool) : HandlerResult :=
  match restrictions.lookup userID with
  | none =>
      { state := st, events := [], timerScheduled := false,
        fault := some "TypeError: cannot read property aspects of undefined" }
  | some aspects =>
      let st1 := applyAvailability st aspects userID desiredRoles captain
      let r := attemptLaunch roles fu st1
      { state := r.state,
        events := Event.sendMessageToUser userID :: r.events,
        timerScheduled := r.timerScheduled,
        fault := none }

/-- The `updateUserReadyStatus` handler: while a window is open, add or
remove the user from the ready set; in every case send the direct
acknowledgment.  It does not invoke `attemptLaunch()`. -/
def updateUserReadyStatusHandler (st : LobbyState) (userID : Nat) (ready : Bool) :
    LobbyState × List Event :=
  (if st.launchAttemptInProgress then
    (if ready then { st with readiesReceived := insert userID st.readiesReceived }
     else { st with readiesReceived := st.readiesReceived.erase userID })
   else st,
   [Event.sendMessageToUser userID])

/-! ## The event loop and reachable states -/

/-- The external triggers that mutate the module state:
an availability-change event, a readiness-change event, and the expiry
of the ready-check timer.  A disconnect is delivered as the pair of an
availability event with no roles and a readiness event with
`ready = false`; an observer connection mutates nothing. -/
inductive LobbyEvent where
  | avail (userID : Nat) (desiredRoles : List String) (captain : Bool)
  | ready (userID : Nat) (isReady : Bool)
  | timerFired

/-- Single-threaded event dispatch: the state after handling one event.
An availability event whose handler throws (user absent from the
restriction map) aborts before any mutation.  The ready-check timer is
only ever pending while a window is open, so `timerFired` is a no-op
otherwise. -/
def stepState (restrictions : List (Nat × List String)) (roles : RoleConfig)
    (fu : Nat → Nat) (st : LobbyState) : LobbyEvent → LobbyState
  | LobbyEvent.avail userID desiredRoles captain =>
      (updateUserAvailabilityHandler restrictions roles fu st userID
        desiredRoles captain).state
  | LobbyEvent.ready userID isReady =>
      (updateUserReadyStatusHandler st userID isReady).1
  | LobbyEvent.timerFired =>
      if st.launchAttemptInProgress then (resolveWindow roles fu st).state else st

/-- The states the module can reach: the state after the startup
`attemptLaunch()` call, closed under event dispatch. -/
inductive Reachable (restrictions : List (Nat × List String)) (roles : RoleConfig)
    (fu : Nat → Nat) : LobbyState → Prop
  | startup : Reachable restrictions roles fu
      (attemptLaunch roles fu (initialState roles)).state
  | step (st : LobbyState) (e : LobbyEvent) :
      Reachable restrictions roles fu st →
      Reachable restrictions roles fu (stepState restrictions roles fu st e)

/-! ## Concrete fixtures -/

/-- A one-role configuration: `tank` with `min = 1` (so 2 players are
required in total). -/
def rolesOne : RoleConfig := [("tank", 1)]

/-- An identity user-descriptor filter for concrete runs. -/
def fuId : Nat → Nat := fun u => u

/-- An open window with two available captains, a sufficient tank pool,
but only user 1 ready: the window will resolve to an abort. -/
def stAbort : LobbyState :=
  { captainsAvailable := {1, 2},
    playersAvailable := [("tank", {1, 2})],
    missingLaunchConditions := [],
    launchAttemptInProgress := true,
    readiesReceived := {1},
    currentStatusMessage := none }

/-- An open window with both captains and the whole tank pool ready:
the window will resolve with zero unmet conditions. -/
def stLaunch : LobbyState :=
  { captainsAvailable := {1, 2},
    playersAvailable := [("tank", {1, 2})],
    missingLaunchConditions := [],
    launchAttemptInProgress := true,
    readiesReceived := {1, 2},
    currentStatusMessage := none }

/-- An open window in which nobody has reaffirmed readiness yet. -/
def stOpenNoneReady : LobbyState :=
  { captainsAvailable := {1, 2},
    playersAvailable := [("tank", {1, 2})],
    missingLaunchConditions := [],
    launchAttemptInProgress := true,
    readiesReceived := ∅,
    currentStatusMessage := none }

/-! ## Helper lemmas about the state machine -/

lemma attemptLaunch_registry (roles : RoleConfig) (fu : Nat → Nat) (st : LobbyState) :
    (attemptLaunch roles fu st).state.playersAvailable = st.playersAvailable ∧
    (attemptLaunch roles fu st).state.captainsAvailable = st.captainsAvailable := by
  simp only [attemptLaunch]
  split_ifs <;> exact ⟨rfl, rfl⟩

lemma attemptLaunch_emits_status (roles : RoleConfig) (fu : Nat → Nat) (st : LobbyState) :
    Event.launchStatusUpdated ∈ (attemptLaunch roles fu st).events := by
  simp only [attemptLaunch]
  split_ifs <;> simp

lemma resolveWindow_state (roles : RoleConfig) (fu : Nat → Nat) (st : LobbyState) :
    (resolveWindow roles fu st).state.playersAvailable =
      st.playersAvailable.map
        (fun p : String × Finset Nat => (p.1, p.2 ∩ st.readiesReceived)) ∧
    (resolveWindow roles fu st).state.captainsAvailable =
      st.captainsAvailable ∩ st.readiesReceived ∧
    (resolveWindow roles fu st).state.launchAttemptInProgress =
      st.launchAttemptInProgress ∧
    (resolveWindow roles fu st).state.readiesReceived = st.readiesReceived := by
  simp only [resolveWindow]
  split_ifs <;> simp [spreadPlainObject]

lemma applyAvailability_flags (st : LobbyState) (aspects : List String) (userID : Nat)
    (desiredRoles : List String) (captain : Bool) :
    (applyAvailability st aspects userID desiredRoles captain).launchAttemptInProgress =
      st.launchAttemptInProgress ∧
    (applyAvailability st aspects userID desiredRoles captain).readiesReceived =
      st.readiesReceived := by
  unfold applyAvailability
  split_ifs <;> exact ⟨rfl, rfl⟩

lemma map_idem_of_idem (g : String × Finset Nat → String × Finset Nat)
    (hg : ∀ p, g (g p) = g p) (l : List (String × Finset Nat)) :
    (l.map g).map g = l.map g := by
  rw [List.map_map]
  exact List.map_congr_left (fun p _ => hg p)

lemma applyAvailability_idem (st st₂ : LobbyState) (aspects : List String) (userID : Nat)
    (desiredRoles : List String) (captain : Bool)
    (hpools : st₂.playersAvailable =
      (applyAvailability st aspects userID desiredRoles captain).playersAvailable)
    (hcaps : st₂.captainsAvailable =
      (applyAvailability st aspects userID desiredRoles captain).captainsAvailable) :
    (applyAvailability st₂ aspects userID desiredRoles captain).playersAvailable =
      (applyAvailability st aspects userID desiredRoles captain).playersAvailable ∧
    (applyAvailability st₂ aspects userID desiredRoles captain).captainsAvailable =
      (applyAvailability st aspects userID desiredRoles captain).captainsAvailable := by
  have htoggle : ∀ p : String × Finset Nat,
      (fun p : String × Finset Nat =>
        if p.1 ∈ desiredRoles then (p.1, insert userID p.2) else (p.1, p.2.erase userID))
        ((fun p : String × Finset Nat =>
          if p.1 ∈ desiredRoles then (p.1, insert userID p.2) else (p.1, p.2.erase userID)) p) =
      (fun p : String × Finset Nat =>
        if p.1 ∈ desiredRoles then (p.1, insert userID p.2) else (p.1, p.2.erase userID)) p := by
    intro p
    by_cases hd : p.1 ∈ desiredRoles <;>
      simp [hd, Finset.insert_idem, Finset.erase_idem]
  have hclear : ∀ p : String × Finset Nat,
      (fun p : String × Finset Nat => (p.1, p.2.erase userID))
        ((fun p : String × Finset Nat => (p.1, p.2.erase userID)) p) =
      (fun p : String × Finset Nat => (p.1, p.2.erase userID)) p := by
    intro p
    simp [Finset.erase_idem]
  unfold applyAvailability at hpools hcaps ⊢
  by_cases hs : "start" ∈ aspects
  · simp only [hs, not_true_eq_false, if_false, if_neg (not_not_intro hs)] at hpools hcaps ⊢
    rw [hpools, hcaps]
    exact ⟨map_idem_of_idem _ hclear _, Finset.erase_idem ..⟩
  · simp only [hs, not_false_eq_true, if_true, if_pos hs] at hpools hcaps ⊢
    rw [hpools, hcaps]
    refine ⟨map_idem_of_idem _ htoggle _, ?_⟩
    by_cases hc : "captain" ∈ aspects
    · simp [hc, Finset.erase_idem]
    · cases captain <;> simp [hc, Finset.insert_idem, Finset.erase_idem]

lemma lookup_map_inter (pools : List (String × Finset Nat)) (x : Finset Nat)
    (roleName : String) :
    (pools.map (fun p : String × Finset Nat => (p.1, p.2 ∩ x))).lookup roleName =
      (pools.lookup roleName).map (fun s => s ∩ x) := by
  induction pools with
  | nil => rfl
  | cons p l ih =>
    cases hb : (roleName == p.1) <;> simp [List.lookup, hb, ih]

lemma poolOf_map_inter (pools : List (String × Finset Nat)) (x : Finset Nat)
    (roleName : String) :
    poolOf (pools.map (fun p : String × Finset Nat => (p.1, p.2 ∩ x))) roleName =
      poolOf pools roleName ∩ x := by
  unfold poolOf
  rw [lookup_map_inter]
  cases pools.lookup roleName <;> simp

lemma attemptLaunch_inv (roles : RoleConfig) (fu : Nat → Nat) (st : LobbyState)
    (ih : st.launchAttemptInProgress = false → st.readiesReceived = ∅) :
    (attemptLaunch roles fu st).state.launchAttemptInProgress = false →
      (attemptLaunch roles fu st).state.readiesReceived = ∅ := by
  simp only [attemptLaunch]
  split_ifs with h1 h2
  · intro hf
    exact absurd hf (by simp [h1])
  · intro _
    rfl
  · exact ih

/-! ## Claims -/

/-- C1: `calculateRolesNeeded` reports a deficit for a non-empty subset
of the configured roles iff the union of the subset's pools is strictly
smaller than the sum of `minimumPerTeam × 2` over the subset; each
deficit carries `shortfall = required − unionSize`; all `2^n − 1`
non-empty subsets are examined; zero configured roles give an empty
output. -/
theorem calculateRolesNeeded_correct (roles : RoleConfig) (pa : String → Finset Nat) :
    (roles = [] → calculateRolesNeeded roles pa = []) ∧
    (∀ c : List String,
      (∃ d, d ∈ calculateRolesNeeded roles pa ∧ d.roles = c) ↔
        (c ≠ [] ∧ c.Sublist (roles.map Prod.fst) ∧
          (subsetUnion pa c).card < subsetRequired roles c)) ∧
    (∀ d, d ∈ calculateRolesNeeded roles pa →
      d.needed = (subsetRequired roles d.roles : Int) -
        ((subsetUnion pa d.roles).card : Int)) ∧
    (enumeratedCombinations (roles.map Prod.fst)).length = 2 ^ roles.length - 1 := by
  refine ⟨?_, ?_, ?_, ?_⟩
  · rintro rfl
    rfl
  · intro c
    constructor
    · rintro ⟨d, hd, rfl⟩
      rw [mem_calculateRolesNeeded] at hd
      exact ⟨hd.2.1, hd.1, hd.2.2.1⟩
    · rintro ⟨hne, hsub, hlt⟩
      exact ⟨{ roles := c,
               needed := (subsetRequired roles c : Int) - ((subsetUnion pa c).card : Int) },
        (mem_calculateRolesNeeded ..).mpr ⟨hsub, hne, hlt, rfl⟩, rfl⟩
  · intro d hd
    exact ((mem_calculateRolesNeeded ..).mp hd).2.2.2
  · rw [length_enumeratedCombinations]
    simp

/-- Witness for C1 at the empty configuration. -/
theorem calculateRolesNeeded_correct_nil :
    calculateRolesNeeded [] (fun _ => (∅ : Finset Nat)) = [] :=
  (calculateRolesNeeded_correct [] (fun _ => ∅)).1 rfl

/-- C2: `checkLaunchConditions` returns exactly the tag list of the
spec's ordered evaluation: `notAvailable` on fewer than 2 captains or
any deficit on the raw pools, `readyNotChecked` when no window is open,
`notReady` when the ready-intersected captain count is below 2 or the
intersected pools are deficient, else the empty list. -/
theorem checkLaunchConditions_correct (roles : RoleConfig) (st : LobbyState) :
    checkLaunchConditions roles st = checkLaunchConditionsSpec roles st :=
  checkLaunchConditions_eq_spec roles st

/-- C3: the code, evaluated at a state whose window resolves to an
abort (2 captains available, only user 1 ready), broadcasts the abort
but leaves `launchAttemptInProgress = true` — neither branch of the
timer callback ever resets it, contrary to the claim. -/
theorem resolveWindow_abort_keeps_window_flag :
    (resolveWindow rolesOne fuId stAbort).events =
      [Event.launchStatusUpdated, Event.launchAborted] ∧
    (resolveWindow rolesOne fuId stAbort).state.launchAttemptInProgress = true := by
  decide

/-- C4: the code, evaluated at a state whose window resolves with zero
unmet conditions, throws a `TypeError` while building the roster payload
(`[...playersAvailable]` spreads a non-iterable plain object) and never
emits the roster event. -/
theorem resolveWindow_roster_payload_faults :
    checkLaunchConditions rolesOne stLaunch = [] ∧
    (resolveWindow rolesOne fuId stLaunch).fault =
      some "TypeError: playersAvailable is not iterable" ∧
    (resolveWindow rolesOne fuId stLaunch).events = [Event.launchStatusUpdated] := by
  decide

/-- C5: while a window is open, `attemptLaunch` only rebuilds and
rebroadcasts the status snapshot: the resulting state differs only in
`currentStatusMessage`, the ready registry is unchanged, the window
stays the single open one, and no timer is scheduled. -/
theorem attemptLaunch_reentrant (roles : RoleConfig) (fu : Nat → Nat) (st : LobbyState)
    (h : st.launchAttemptInProgress = true) :
    attemptLaunch roles fu st =
      { state := { st with currentStatusMessage := some (prepareStatusMessage roles fu st) },
        events := [Event.launchStatusUpdated],
        timerScheduled := false } ∧
    (attemptLaunch roles fu st).state.readiesReceived = st.readiesReceived ∧
    (attemptLaunch roles fu st).state.launchAttemptInProgress = true ∧
    (attemptLaunch roles fu st).timerScheduled = false := by
  simp [attemptLaunch, h]

/-- Witness for C5 at a concrete open-window state. -/
theorem attemptLaunch_reentrant_concrete :
    attemptLaunch rolesOne fuId stOpenNoneReady =
      { state := { stOpenNoneReady with
          currentStatusMessage := some (prepareStatusMessage rolesOne fuId stOpenNoneReady) },
        events := [Event.launchStatusUpdated],
        timerScheduled := false } ∧
    (attemptLaunch rolesOne fuId stOpenNoneReady).state.readiesReceived =
      stOpenNoneReady.readiesReceived ∧
    (attemptLaunch rolesOne fuId stOpenNoneReady).state.launchAttemptInProgress = true ∧
    (attemptLaunch rolesOne fuId stOpenNoneReady).timerScheduled = false :=
  attemptLaunch_reentrant rolesOne fuId stOpenNoneReady rfl

/-- C6 (counterexample): a readiness event at an open-window state
mutates the ready registry yet emits only the direct acknowledgment —
no status-snapshot broadcast follows, so `attemptLaunch()` is not
invoked after readiness changes. -/
theorem readiness_event_no_broadcast :
    (updateUserReadyStatusHandler stOpenNoneReady 1 true).1 ≠ stOpenNoneReady ∧
    Event.launchStatusUpdated ∉ (updateUserReadyStatusHandler stOpenNoneReady 1 true).2 := by
  decide

/-- C6 (amended): after an availability-change event from a user
present in the restriction map, `attemptLaunch()` runs and a
status-snapshot broadcast is emitted; an availability event from an
absent user faults before `attemptLaunch()`, emitting nothing; a
readiness-change event only sends the direct acknowledgment to the
user, never a broadcast. -/
theorem availability_event_broadcast (restrictions : List (Nat × List String))
    (roles : RoleConfig) (fu : Nat → Nat) (st : LobbyState) (userID : Nat)
    (desiredRoles : List String) (captain : Bool) :
    ((restrictions.lookup userID).isSome = true →
      Event.launchStatusUpdated ∈
        (updateUserAvailabilityHandler restrictions roles fu st userID desiredRoles
          captain).events) ∧
    ((restrictions.lookup userID).isSome = false →
      (updateUserAvailabilityHandler restrictions roles fu st userID desiredRoles
          captain).events = [] ∧
      (updateUserAvailabilityHandler restrictions roles fu st userID desiredRoles
          captain).fault.isSome = true) ∧
    (∀ st₂ userID₂ ready,
      (updateUserReadyStatusHandler st₂ userID₂ ready).2 =
        [Event.sendMessageToUser userID₂]) := by
  refine ⟨?_, ?_, fun st₂ userID₂ ready => rfl⟩
  · cases hl : restrictions.lookup userID with
    | none =>
        intro hsome
        exact absurd hsome (by simp)
    | some aspects =>
        intro _
        simp only [updateUserAvailabilityHandler, hl]
        exact List.mem_cons_of_mem _ (attemptLaunch_emits_status ..)
  · cases hl : restrictions.lookup userID with
    | none =>
        intro _
        simp only [updateUserAvailabilityHandler, hl]
        exact ⟨by trivial, by trivial⟩
    | some aspects =>
        intro hnone
        exact absurd hnone (by simp)

/-- Witness for the amended C6 at a concrete restriction map,
exercising both the present-user and the absent-user case. -/
theorem availability_event_broadcast_concrete :
    Event.launchStatusUpdated ∈
      (updateUserAvailabilityHandler [(1, [])] rolesOne fuId (initialState rolesOne) 1
        ["tank"] true).events ∧
    (updateUserAvailabilityHandler [(1, [])] rolesOne fuId (initialState rolesOne) 2
        ["tank"] true).events = [] ∧
    (updateUserAvailabilityHandler [(1, [])] rolesOne fuId (initialState rolesOne) 2
        ["tank"] true).fault.isSome = true :=
  ⟨(availability_event_broadcast [(1, [])] rolesOne fuId (initialState rolesOne) 1
      ["tank"] true).1 rfl,
    (availability_event_broadcast [(1, [])] rolesOne fuId (initialState rolesOne) 2
      ["tank"] true).2.1 rfl⟩

/-- C7 (counterexample): an availability update by a user absent from
the restriction map throws (`undefined.aspects`) before any mutation,
so the operation is not total. -/
theorem updateAvailability_missing_user_faults :
    (updateUserAvailabilityHandler [] rolesOne fuId (initialState rolesOne) 0 ["tank"]
      true).fault = some "TypeError: cannot read property aspects of undefined" ∧
    (updateUserAvailabilityHandler [] rolesOne fuId (initialState rolesOne) 0 ["tank"]
      true).state = initialState rolesOne ∧
    (updateUserAvailabilityHandler [] rolesOne fuId (initialState rolesOne) 0 ["tank"]
      true).events = [] := by
  decide

/-- C7 (amended): for every user present in the restriction map, every
desired-role set and every captain flag, the availability update
completes without error, and applying it twice leaves the same
availability registry (role pools and captain set) as applying it
once. -/
theorem updateAvailability_total_idem (restrictions : List (Nat × List String))
    (roles : RoleConfig) (fu : Nat → Nat) (st : LobbyState) (userID : Nat)
    (desiredRoles : List String) (captain : Bool) (aspects : List String)
    (h : restrictions.lookup userID = some aspects) :
    (updateUserAvailabilityHandler restrictions roles fu st userID desiredRoles
        captain).fault = none ∧
    (updateUserAvailabilityHandler restrictions roles fu
        (updateUserAvailabilityHandler restrictions roles fu st userID desiredRoles
          captain).state userID desiredRoles captain).state.playersAvailable =
      (updateUserAvailabilityHandler restrictions roles fu st userID desiredRoles
        captain).state.playersAvailable ∧
    (updateUserAvailabilityHandler restrictions roles fu
        (updateUserAvailabilityHandler restrictions roles fu st userID desiredRoles
          captain).state userID desiredRoles captain).state.captainsAvailable =
      (updateUserAvailabilityHandler restrictions roles fu st userID desiredRoles
        captain).state.captainsAvailable := by
  simp only [updateUserAvailabilityHandler, h]
  have hreg := attemptLaunch_registry roles fu
    (applyAvailability st aspects userID desiredRoles captain)
  have hreg2 := attemptLaunch_registry roles fu
    (applyAvailability
      (attemptLaunch roles fu (applyAvailability st aspects userID desiredRoles
        captain)).state aspects userID desiredRoles captain)
  have hidem := applyAvailability_idem st
    (attemptLaunch roles fu (applyAvailability st aspects userID desiredRoles
      captain)).state aspects userID desiredRoles captain hreg.1 hreg.2
  exact ⟨by trivial, hreg2.1.trans (hidem.1.trans hreg.1.symm),
    hreg2.2.trans (hidem.2.trans hreg.2.symm)⟩

/-- Witness for the amended C7 at a concrete restriction map. -/
theorem updateAvailability_total_idem_concrete :
    (updateUserAvailabilityHandler [(1, [])] rolesOne fuId (initialState rolesOne) 1
        ["tank"] true).fault = none ∧
    (updateUserAvailabilityHandler [(1, [])] rolesOne fuId
        (updateUserAvailabilityHandler [(1, [])] rolesOne fuId (initialState rolesOne) 1
          ["tank"] true).state 1 ["tank"] true).state.playersAvailable =
      (updateUserAvailabilityHandler [(1, [])] rolesOne fuId (initialState rolesOne) 1
        ["tank"] true).state.playersAvailable ∧
    (updateUserAvailabilityHandler [(1, [])] rolesOne fuId
        (updateUserAvailabilityHandler [(1, [])] rolesOne fuId (initialState rolesOne) 1
          ["tank"] true).state 1 ["tank"] true).state.captainsAvailable =
      (updateUserAvailabilityHandler [(1, [])] rolesOne fuId (initialState rolesOne) 1
        ["tank"] true).state.captainsAvailable :=
  updateAvailability_total_idem [(1, [])] rolesOne fuId (initialState rolesOne) 1 ["tank"]
    true [] rfl

/-- C8 (counterexample): resolving a ready-check window with an empty
ready set replaces the tank pool `{1, 2}` and the captain set `{1, 2}`
by `∅` — window resolution does mutate the availability registry. -/
theorem resolveWindow_mutates_pools :
    (resolveWindow rolesOne fuId stOpenNoneReady).state.playersAvailable ≠
      stOpenNoneReady.playersAvailable ∧
    (resolveWindow rolesOne fuId stOpenNoneReady).state.captainsAvailable ≠
      stOpenNoneReady.captainsAvailable := by
  decide

/-- C8 (amended): opening a window (`attemptLaunch`) and readiness
events leave the availability registry unchanged; resolving a window
replaces each role pool and the captain set by its intersection with
the ready registry (pruning non-ready users). -/
theorem registry_mutation_frame (roles : RoleConfig) (fu : Nat → Nat) (st : LobbyState) :
    ((attemptLaunch roles fu st).state.playersAvailable = st.playersAvailable ∧
      (attemptLaunch roles fu st).state.captainsAvailable = st.captainsAvailable) ∧
    ((resolveWindow roles fu st).state.playersAvailable =
        st.playersAvailable.map
          (fun p : String × Finset Nat => (p.1, p.2 ∩ st.readiesReceived)) ∧
      (resolveWindow roles fu st).state.captainsAvailable =
        st.captainsAvailable ∩ st.readiesReceived) ∧
    (∀ userID ready,
      (updateUserReadyStatusHandler st userID ready).1.playersAvailable =
          st.playersAvailable ∧
        (updateUserReadyStatusHandler st userID ready).1.captainsAvailable =
          st.captainsAvailable) := by
  refine ⟨attemptLaunch_registry roles fu st,
    ⟨(resolveWindow_state roles fu st).1, (resolveWindow_state roles fu st).2.1⟩, ?_⟩
  intro userID ready
  unfold updateUserReadyStatusHandler
  split_ifs <;> exact ⟨rfl, rfl⟩

/-- C9: within one open window, the outcome is monotone in the ready
set: if the conditions are fully met with ready set `R.erase u`, they
are fully met with `R`. -/
theorem readySet_monotone (roles : RoleConfig) (st : LobbyState) (R : Finset Nat)
    (u : Nat) (hin : st.launchAttemptInProgress = true)
    (h : checkLaunchConditions roles { st with readiesReceived := R.erase u } = []) :
    checkLaunchConditions roles { st with readiesReceived := R } = [] := by
  rw [checkLaunchConditions_eq_spec] at h ⊢
  unfold checkLaunchConditionsSpec at h ⊢
  dsimp only at h ⊢
  by_cases h1 : st.captainsAvailable.card < 2
  · rw [if_pos h1] at h
    exact absurd h (by simp)
  rw [if_neg h1] at h ⊢
  by_cases h2 : anyDeficit roles (poolOf st.playersAvailable) = true
  · rw [if_pos h2] at h
    exact absurd h (by simp)
  rw [if_neg h2] at h ⊢
  rw [if_neg (not_not_intro hin)] at h ⊢
  by_cases h4 : (st.captainsAvailable ∩ R.erase u).card < 2 ∨
      anyDeficit roles
        (poolOf (st.playersAvailable.map
          (fun p : String × Finset Nat => (p.1, p.2 ∩ R.erase u)))) = true
  · rw [if_pos h4] at h
    exact absurd h (by simp)
  push_neg at h4
  obtain ⟨hcap, hdef⟩ := h4
  have hgoal : ¬((st.captainsAvailable ∩ R).card < 2 ∨
      anyDeficit roles
        (poolOf (st.playersAvailable.map
          (fun p : String × Finset Nat => (p.1, p.2 ∩ R)))) = true) := by
    rintro (hlt | hdefR)
    · have hsub : st.captainsAvailable ∩ R.erase u ⊆ st.captainsAvailable ∩ R :=
        Finset.inter_subset_inter (Finset.Subset.refl _) (Finset.erase_subset ..)
      have := Finset.card_le_card hsub
      omega
    · have hnil : calculateRolesNeeded roles
          (poolOf (st.playersAvailable.map
            (fun p : String × Finset Nat => (p.1, p.2 ∩ R.erase u)))) = [] := by
        by_contra hne
        exact hdef ((anyDeficit_iff ..).mpr hne)
      have hmono := calculateRolesNeeded_mono roles
        (poolOf (st.playersAvailable.map
          (fun p : String × Finset Nat => (p.1, p.2 ∩ R.erase u))))
        (poolOf (st.playersAvailable.map
          (fun p : String × Finset Nat => (p.1, p.2 ∩ R))))
        (fun r => by
          rw [poolOf_map_inter, poolOf_map_inter]
          exact Finset.inter_subset_inter (Finset.Subset.refl _)
            (Finset.erase_subset ..))
        hnil
      exact ((anyDeficit_iff ..).mp hdefR) hmono
  rw [if_neg hgoal]

/-- Witness for C9: everyone ready plus an extra ready user 3. -/
theorem readySet_monotone_concrete :
    checkLaunchConditions rolesOne
      { stAbort with readiesReceived := ({1, 2, 3} : Finset Nat) } = [] :=
  readySet_monotone rolesOne stAbort {1, 2, 3} 3 rfl (by decide)

/-- C10: in every reachable state with no open window the ready
registry is empty; a readiness event with no open window leaves the
state unchanged apart from the acknowledgment; whenever a window opens
(a timer is scheduled) the ready registry is reset to empty. -/
theorem readies_empty_when_idle (restrictions : List (Nat × List String))
    (roles : RoleConfig) (fu : Nat → Nat) :
    (∀ st, Reachable restrictions roles fu st →
      st.launchAttemptInProgress = false → st.readiesReceived = ∅) ∧
    (∀ st userID ready, st.launchAttemptInProgress = false →
      updateUserReadyStatusHandler st userID ready =
        (st, [Event.sendMessageToUser userID])) ∧
    (∀ st, (attemptLaunch roles fu st).timerScheduled = true →
      (attemptLaunch roles fu st).state.readiesReceived = ∅) := by
  refine ⟨?_, ?_, ?_⟩
  · intro st hreach
    induction hreach with
    | startup =>
        exact attemptLaunch_inv roles fu (initialState roles) (fun _ => rfl)
    | step st' e hr ih =>
        cases e with
        | avail userID desiredRoles captain =>
            cases hl : restrictions.lookup userID with
            | none =>
                simpa [stepState, updateUserAvailabilityHandler, hl] using ih
            | some aspects =>
                simp only [stepState, updateUserAvailabilityHandler, hl]
                exact attemptLaunch_inv roles fu _
                  (fun hf => by
                    rw [(applyAvailability_flags st' aspects userID desiredRoles
                      captain).2]
                    exact ih ((applyAvailability_flags st' aspects userID desiredRoles
                      captain).1 ▸ hf))
        | ready userID isReady =>
            intro hf
            by_cases hp : st'.launchAttemptInProgress = true
            · exfalso
              cases isReady <;>
                simp [stepState, updateUserReadyStatusHandler, hp] at hf
            · have hst : stepState restrictions roles fu st'
                  (LobbyEvent.ready userID isReady) = st' := by
                simp [stepState, updateUserReadyStatusHandler, hp]
              rw [hst] at hf ⊢
              exact ih hf
        | timerFired =>
            by_cases hp : st'.launchAttemptInProgress = true
            · simp only [stepState, if_pos hp]
              intro hf
              rw [(resolveWindow_state roles fu st').2.2.1] at hf
              exact absurd hf (by simp [hp])
            · simp only [stepState, if_neg hp]
              exact ih
  · intro st userID ready hfalse
    simp [updateUserReadyStatusHandler, hfalse]
  · intro st h
    simp only [attemptLaunch] at h ⊢
    split_ifs at h ⊢
    rfl

/-- Witness for C10 at the startup state. -/
theorem readies_empty_when_idle_concrete :
    (attemptLaunch rolesOne fuId (initialState rolesOne)).state.readiesReceived = ∅ :=
  (readies_empty_when_idle [] rolesOne fuId).1
    (attemptLaunch rolesOne fuId (initialState rolesOne)).state Reachable.startup
    (by decide)
